import Mathlib

/-!
Verification of the autodev-workbench source-structuring subsystem.

The development shallowly embeds the TypeScript sources:
  - packages/context-worker/src/code-context/rust/RustProfile.ts
    (the RustProfile language profile and the InterfaceAnalyzerApp),
  - packages/web/src/lib/ai-validator.ts (validateConcepts),
  - packages/context-mcp/src/server.ts (MCPServerImpl).
JavaScript strings are embedded as Lean String values; path predicates that use
String.prototype.endsWith are embedded over the character list of the string.
Opaque grammar handles are embedded as natural-number identities.  Fallible
steps (thrown exceptions, rejected promises) are embedded as Except values, and
external effects (file writes, HTTP fetches, console logging) as explicit
event values returned by the embedded functions.
-/

/-- Modelled from the spec: the class MemoizedQuery is imported by RustProfile.ts
from the base LanguageProfile module, whose source is not among the provided
files; only its construction sites are visible.  Spec section 4.1: a compiled
query object is keyed by the pair of its pattern text and the grammar handle it
was compiled against.  Grammar handles are opaque; we model their identity as a
natural number. -/
structure CompiledQuery where
  pattern : String
  grammarId : Nat
deriving DecidableEq, Repr

/-- Modelled from the spec: compiling a pattern text against a grammar handle
produces a compiled object tied to that exact (pattern, grammar) pair. -/
def compileQuery (p : String) (g : Nat) : CompiledQuery :=
  { pattern := p, grammarId := g }

/-- Modelled from the spec: a MemoizedQuery instance stores its pattern text at
construction together with the memoization table mapping each grammar handle it
has been evaluated against to the compiled object produced for it (spec 3:
"at most one compiled object exists per distinct (pattern, grammar) pair";
spec 4.1: the cache key is the (pattern text, grammar handle) pair). -/
structure MemoizedQuery where
  queryStr : String
  compiled : List (Nat × CompiledQuery)

/-- Modelled from the spec: constructing a MemoizedQuery (as RustProfile.ts does
with new MemoizedQuery of a pattern literal) records the pattern text and
compiles nothing: "compilation is lazy - performed on first evaluation request,
never eagerly". -/
def MemoizedQuery.make (p : String) : MemoizedQuery :=
  { queryStr := p, compiled := [] }

/-- Modelled from the spec: the lookup-or-compile step of the cache.  On a hit
the previously compiled object is returned unchanged and the table is left as
it was; on a miss the pattern is compiled against the grammar handle and the
result inserted. -/
def cacheLookup (p : String) (g : Nat) :
    List (Nat × CompiledQuery) → CompiledQuery × List (Nat × CompiledQuery)
  | [] => (compileQuery p g, [(g, compileQuery p g)])
  | (k, q) :: rest =>
    if k = g then (q, (k, q) :: rest)
    else
      let r := cacheLookup p g rest
      (r.1, (k, q) :: r.2)

/-- Modelled from the spec: get(patternText, grammarHandle) of section 4.1,
specialised to the instance's stored pattern text.  Returns the compiled object
together with the updated instance. -/
def MemoizedQuery.get (m : MemoizedQuery) (g : Nat) : CompiledQuery × MemoizedQuery :=
  let r := cacheLookup m.queryStr g m.compiled
  (r.1, { queryStr := m.queryStr, compiled := r.2 })

/-- Run a sequence of evaluation requests against a MemoizedQuery, keeping the
final instance state. -/
def MemoizedQuery.runGets (m : MemoizedQuery) (gs : List Nat) : MemoizedQuery :=
  gs.foldl (fun m g => (m.get g).2) m

/-- Well-formedness of a memoization table for pattern p: every entry was
produced by compiling p against the grammar handle it is keyed under. -/
def cacheWF (p : String) (c : List (Nat × CompiledQuery)) : Prop :=
  ∀ e ∈ c, e.2 = compileQuery p e.1

theorem cacheWF_nil (p : String) : cacheWF p [] := by
  intro e he
  cases he

theorem cacheLookup_result (p : String) (g : Nat) (c : List (Nat × CompiledQuery))
    (hwf : cacheWF p c) : (cacheLookup p g c).1 = compileQuery p g := by
  induction c with
  | nil => rfl
  | cons e rest ih =>
    obtain ⟨k, q⟩ := e
    by_cases hk : k = g
    · simp only [cacheLookup, if_pos hk]
      have := hwf (k, q) (List.mem_cons_self _ _)
      simp only at this
      rw [this, hk]
    · simp only [cacheLookup, if_neg hk]
      exact ih (fun e he => hwf e (List.mem_cons_of_mem _ he))

theorem cacheLookup_wf (p : String) (g : Nat) (c : List (Nat × CompiledQuery))
    (hwf : cacheWF p c) : cacheWF p (cacheLookup p g c).2 := by
  induction c with
  | nil =>
    intro e he
    simp only [cacheLookup, List.mem_singleton] at he
    subst he
    rfl
  | cons hd rest ih =>
    obtain ⟨k, q⟩ := hd
    by_cases hk : k = g
    · simp only [cacheLookup, if_pos hk]
      exact hwf
    · simp only [cacheLookup, if_neg hk]
      intro e he
      rcases List.mem_cons.mp he with he | he
      · subst he
        exact hwf (k, q) (List.mem_cons_self _ _)
      · exact ih (fun e he => hwf e (List.mem_cons_of_mem _ he)) e he

/-- Well-formedness of a MemoizedQuery instance. -/
def MemoizedQuery.WF (m : MemoizedQuery) : Prop :=
  cacheWF m.queryStr m.compiled

theorem MemoizedQuery.make_wf (p : String) : (MemoizedQuery.make p).WF :=
  cacheWF_nil p

theorem MemoizedQuery.get_queryStr (m : MemoizedQuery) (g : Nat) :
    ((m.get g).2).queryStr = m.queryStr := rfl

theorem MemoizedQuery.get_wf (m : MemoizedQuery) (g : Nat) (h : m.WF) :
    ((m.get g).2).WF :=
  cacheLookup_wf m.queryStr g m.compiled h

theorem MemoizedQuery.get_result (m : MemoizedQuery) (g : Nat) (h : m.WF) :
    (m.get g).1 = compileQuery m.queryStr g :=
  cacheLookup_result m.queryStr g m.compiled h

theorem MemoizedQuery.runGets_queryStr (m : MemoizedQuery) (gs : List Nat) :
    (m.runGets gs).queryStr = m.queryStr := by
  induction gs generalizing m with
  | nil => rfl
  | cons g gs ih =>
    simp only [MemoizedQuery.runGets, List.foldl_cons] at *
    exact (ih ((m.get g).2)).trans (MemoizedQuery.get_queryStr m g)

theorem MemoizedQuery.runGets_wf (m : MemoizedQuery) (gs : List Nat) (h : m.WF) :
    (m.runGets gs).WF := by
  induction gs generalizing m with
  | nil => exact h
  | cons g gs ih =>
    simp only [MemoizedQuery.runGets, List.foldl_cons] at *
    exact ih ((m.get g).2) (MemoizedQuery.get_wf m g h)

theorem cacheLookup_stable (p : String) (g : Nat) (c : List (Nat × CompiledQuery)) :
    cacheLookup p g (cacheLookup p g c).2 = cacheLookup p g c := by
  induction c with
  | nil => simp [cacheLookup]
  | cons hd rest ih =>
    obtain ⟨k, q⟩ := hd
    by_cases hk : k = g
    · simp [cacheLookup, if_pos hk]
    · simp only [cacheLookup, if_neg hk, ih]

theorem cacheLookup_keys (p : String) (g : Nat) (c : List (Nat × CompiledQuery)) :
    ((cacheLookup p g c).2).map Prod.fst =
      if g ∈ c.map Prod.fst then c.map Prod.fst else c.map Prod.fst ++ [g] := by
  induction c with
  | nil => simp [cacheLookup]
  | cons hd rest ih =>
    obtain ⟨k, q⟩ := hd
    by_cases hk : k = g
    · subst hk
      simp [cacheLookup]
    · have hk' : g = k ↔ False := by
        constructor
        · intro h
          exact hk h.symm
        · intro h
          cases h
      simp only [cacheLookup, if_neg hk, List.map_cons, List.mem_cons, hk', false_or, ih]
      by_cases hg : g ∈ rest.map Prod.fst
      · simp [hg]
      · simp [hg]

theorem cacheLookup_nodup (p : String) (g : Nat) (c : List (Nat × CompiledQuery))
    (h : (c.map Prod.fst).Nodup) : (((cacheLookup p g c).2).map Prod.fst).Nodup := by
  rw [cacheLookup_keys]
  by_cases hg : g ∈ c.map Prod.fst
  · simpa [hg] using h
  · simp only [if_neg hg]
    exact List.Nodup.append h (List.nodup_singleton g) (by
      intro a ha hb
      simp only [List.mem_singleton] at hb
      subst hb
      exact hg ha)

theorem MemoizedQuery.runGets_nodup (m : MemoizedQuery) (gs : List Nat)
    (h : (m.compiled.map Prod.fst).Nodup) :
    ((m.runGets gs).compiled.map Prod.fst).Nodup := by
  induction gs generalizing m with
  | nil => exact h
  | cons g gs ih =>
    simp only [MemoizedQuery.runGets, List.foldl_cons] at *
    exact ih ((m.get g).2) (cacheLookup_nodup m.queryStr g m.compiled h)

/-- The LanguageProfile shape, with the fields that RustProfile.ts assigns.
The scopeQuery field of the source is built from an imported rust.scm asset
whose text is external to the shown sources, so it is embedded as the pattern
text being an unconstrained parameter is not needed by any claim and the field
is omitted.  Test-file predicates use JavaScript String.prototype.endsWith,
embedded over the character list of the path string. -/
structure LanguageProfile where
  languageIds : List String
  fileExtensions : List String
  isTestFile : List Char → Bool
  hoverableQuery : MemoizedQuery
  classQuery : MemoizedQuery
  methodQuery : MemoizedQuery
  blockCommentQuery : MemoizedQuery
  methodIOQuery : MemoizedQuery
  structureQuery : MemoizedQuery
  namespaces : List (List String)
  autoSelectInsideParent : List String
  builtInTypes : List String

/-- The RustProfile class of RustProfile.ts, embedded field by field. -/
def rustProfile : LanguageProfile :=
  { languageIds := ["rust"]
    fileExtensions := ["rs"]
    isTestFile := fun filePath => List.isSuffixOf "test.rs".toList filePath
    hoverableQuery := MemoizedQuery.make "
     [(identifier)
         (shorthand_field_identifier)
         (field_identifier)
         (type_identifier)] @hoverable
  "
    classQuery := MemoizedQuery.make "
		(struct_item (type_identifier) @type_identifier) @type_declaration
    "
    methodQuery := MemoizedQuery.make "
			(function_item (identifier) @name.definition.method) @definition.method
    "
    blockCommentQuery := MemoizedQuery.make "
		(block_comment) @docComment
	"
    methodIOQuery := MemoizedQuery.make "
		(function_item
      name: (identifier) @function.identifier
      return_type: (type_identifier)? @method-returnType
		) @function
	"
    structureQuery := MemoizedQuery.make "
		(use_declaration
       argument: (scoped_use_list
				   path: (scoped_identifier) @use-path)
    )?

		(struct_item
			name: (type_identifier) @struct-name
			body: [
				(field_declaration_list
					(field_declaration
						name: (field_identifier) @struct-field-name
						type: (_) @struct-field-type)?
				)?
				(ordered_field_declaration_list)?
			]
		)

		(trait_item
			name: (type_identifier) @trait-name
			body: (declaration_list
				(function_signature_item
					name: (identifier) @trait-method-name
					parameters: (parameters) @trait-method-params
					return_type: (_)? @trait-method-return-type
				)?
			)?
		)

		(impl_item
			trait: (type_identifier)? @impl-trait-name
			type: (type_identifier) @impl-struct-name
			body: (declaration_list
				(function_item
					name: (identifier) @impl-method-name
					parameters: (parameters) @impl-method-params
					return_type: (_)? @impl-method-returnType
					body: (_) @impl-method-body
				)?
			)?
		)

		(function_item
			name: (identifier) @function-name
			parameters: (parameters) @function-params
			return_type: (_)? @function-returnType
			body: (_) @function-body
		)

		(parameter
			pattern: (identifier) @param-name
			type: (_) @param-type
		)
	"
    namespaces := [[
      "const",
      "function",
      "variable",
      "struct",
      "enum",
      "union",
      "typedef",
      "interface",
      "field",
      "enumerator",
      "module",
      "label",
      "lifetime"]]
    autoSelectInsideParent := []
    builtInTypes := [
      "bool",
      "i8",
      "char",
      "i16",
      "i32",
      "i64",
      "f32",
      "f64",
      "()",
      "bool",
      "i8",
      "char",
      "i16",
      "i32",
      "i64",
      "f32",
      "f64",
      "String",
      "&[T]",
      "Vec<T>",
      "HashMap<K, V>",
      "HashSet<T>",
      "Vec<T>",
      "impl Iterator",
      "impl Iterator",
      "Option<T>"] }

/-- C1: for every pattern text p and distinct grammar handles g1 and g2, the
Pattern Query Cache never returns the compiled object produced for (p, g1) when
asked for (p, g2): after any history of evaluation requests, the objects handed
out for g1 and for g2 differ. -/
theorem c1_no_sharing_across_grammars (p : String) (gs : List Nat) (g1 g2 : Nat)
    (h : g1 ≠ g2) :
    (((MemoizedQuery.make p).runGets gs).get g1).1 ≠
      (((MemoizedQuery.make p).runGets gs).get g2).1 := by
  have hwf := MemoizedQuery.runGets_wf (MemoizedQuery.make p) gs (MemoizedQuery.make_wf p)
  rw [MemoizedQuery.get_result _ _ hwf, MemoizedQuery.get_result _ _ hwf]
  intro hc
  exact h (congrArg CompiledQuery.grammarId hc)

/-- Witness for C1 at pattern "(block_comment) @docComment" and grammar
handles 0 and 1 with an empty request history. -/
theorem c1_witness :
    (0 : Nat) ≠ 1 ∧
    (((MemoizedQuery.make "(block_comment) @docComment").runGets []).get 0).1 ≠
      (((MemoizedQuery.make "(block_comment) @docComment").runGets []).get 1).1 :=
  ⟨by decide, c1_no_sharing_across_grammars "(block_comment) @docComment" [] 0 1 (by decide)⟩

/-- C2: the cache holds nothing at construction (compilation is lazy, never
eager), a repeated request for the same grammar handle returns the very same
compiled object and leaves the instance unchanged, and the memoization table
never holds two entries for one grammar handle (at most one compiled object
per (pattern, grammar) pair). -/
theorem c2_memoized_and_lazy (p : String) (gs : List Nat) (g : Nat) :
    (MemoizedQuery.make p).compiled = [] ∧
    ((((MemoizedQuery.make p).runGets gs).get g).2).get g =
      ((MemoizedQuery.make p).runGets gs).get g ∧
    (((((MemoizedQuery.make p).runGets gs).get g).2).compiled.map Prod.fst).Nodup := by
  refine ⟨rfl, ?_, ?_⟩
  · show MemoizedQuery.get _ _ = _
    simp only [MemoizedQuery.get, cacheLookup_stable]
  · exact cacheLookup_nodup _ g _
      (MemoizedQuery.runGets_nodup (MemoizedQuery.make p) gs List.nodup_nil)

/-- C4: the Rust profile's symbol-kind taxonomy is exactly one ordered group
with the thirteen canonical kind names in the stated order. -/
theorem c4_namespaces_exact :
    rustProfile.namespaces.length = 1 ∧
    rustProfile.namespaces = [["const", "function", "variable", "struct", "enum",
      "union", "typedef", "interface", "field", "enumerator", "module", "label",
      "lifetime"]] :=
  ⟨rfl, rfl⟩

/-- C8: the Rust profile's test-file predicate holds exactly on paths ending in
the character suffix "test.rs"; in particular "latest.rs" and "my_test.rs" are
classified as test files while "tests/foo.rs" is not. -/
theorem c8_isTestFile_suffix :
    (∀ p : List Char, rustProfile.isTestFile p = true ↔
      ∃ pre : List Char, p = pre ++ "test.rs".toList) ∧
    rustProfile.isTestFile "latest.rs".toList = true ∧
    rustProfile.isTestFile "my_test.rs".toList = true ∧
    rustProfile.isTestFile "tests/foo.rs".toList = false := by
  refine ⟨fun p => ?_, rfl, rfl, rfl⟩
  constructor
  · intro h
    obtain ⟨t, ht⟩ := List.isSuffixOf_iff_suffix.mp h
    exact ⟨t, ht.symm⟩
  · rintro ⟨pre, rfl⟩
    exact List.isSuffixOf_iff_suffix.mpr ⟨pre, rfl⟩

/-- Modelled from the spec: the CodeAnalyzer class (analyzers/CodeAnalyzer.ts)
is not among the provided sources, only its call sites in InterfaceAnalyzerApp.
Spec section 4.4: for each candidate file the analyzer resolves a profile,
parses and structures it; the per-file state machine ends Structured or Failed.
The outcome of the per-file pipeline for one file is embedded as this step
value. -/
inductive FileStep
  | structured (entities : List String)
  | unsupportedLanguage
  | parseError
  | structureError
deriving DecidableEq, Repr

/-- Modelled from the spec: one candidate file of a directory scan, with its
path and the outcome its processing pipeline reaches. -/
structure FileInput where
  path : String
  step : FileStep
deriving DecidableEq, Repr

/-- The FileStructureResult of spec section 3: file path, top-level entities
and the per-file error list (possibly empty). -/
structure FileStructureResult where
  path : String
  entities : List String
  errors : List String
deriving DecidableEq, Repr

/-- Whether the per-file pipeline failed for this file. -/
def fileFailed (f : FileInput) : Bool :=
  match f.step with
  | .structured _ => false
  | _ => true

/-- Modelled from the spec: folding one file into its FileStructureResult.
A failure of resolution, parsing or structuring is recorded as a per-file
error with the error kind of spec section 7, never thrown; a structured file
carries its entities and an empty error list. -/
def processFile (f : FileInput) : FileStructureResult :=
  match f.step with
  | .structured es => { path := f.path, entities := es, errors := [] }
  | .unsupportedLanguage => { path := f.path, entities := [], errors := ["UnsupportedLanguage"] }
  | .parseError => { path := f.path, entities := [], errors := ["ParseError"] }
  | .structureError => { path := f.path, entities := [], errors := ["QueryCompilationError"] }

/-- The CodeAnalysisResult of spec section 3: root directory, ordered per-file
results and aggregate counters. -/
structure CodeAnalysisResult where
  rootDir : String
  fileResults : List FileStructureResult
  filesScanned : Nat
  filesFailed : Nat
  elapsedMs : Nat
deriving DecidableEq, Repr

/-- Modelled from the spec: analyzeDirectory of spec section 4.4.  The
directory listing is the external traversal's answer: none when the root
directory itself cannot be accessed (the only fatal, scan-aborting error),
some files otherwise.  Every attempted file contributes exactly one
FileStructureResult; the clock input feeds the elapsed-time counter. -/
def analyzeDirectory (rootDir : String) (listing : Option (List FileInput))
    (clock : Nat) : Except String CodeAnalysisResult :=
  match listing with
  | none => .error "cannot traverse root directory"
  | some files =>
    .ok { rootDir := rootDir
          fileResults := files.map processFile
          filesScanned := files.length
          filesFailed := (files.filter fileFailed).length
          elapsedMs := clock }

/-- Erase the timing counter of a CodeAnalysisResult. -/
def stripTiming (r : CodeAnalysisResult) : CodeAnalysisResult :=
  { r with elapsedMs := 0 }

theorem processFile_path (f : FileInput) : (processFile f).path = f.path := by
  cases f with
  | mk p st => cases st <;> rfl

theorem processFile_failed_errors (f : FileInput) (h : fileFailed f = true) :
    (processFile f).errors ≠ [] := by
  cases f with
  | mk p st =>
    cases st with
    | structured es => simp [fileFailed] at h
    | unsupportedLanguage => simp [processFile]
    | parseError => simp [processFile]
    | structureError => simp [processFile]

/-- C3: a per-file failure is recorded in that file's result and never crosses
the file boundary: the scan still returns a result holding one entry per
attempted file with every sibling's path present in order, the failed file's
entry carries a non-empty error list, and only the inaccessible-root listing
aborts the scan.  Modelled from the spec (CodeAnalyzer is not among the
provided sources). -/
theorem c3_per_file_error_isolation (rootDir : String) (files : List FileInput)
    (clock : Nat) (f : FileInput) (hf : f ∈ files) (hfail : fileFailed f = true) :
    ∃ r, analyzeDirectory rootDir (some files) clock = Except.ok r ∧
      r.fileResults.map FileStructureResult.path = files.map FileInput.path ∧
      processFile f ∈ r.fileResults ∧
      (processFile f).errors ≠ [] ∧
      analyzeDirectory rootDir none clock = Except.error "cannot traverse root directory" := by
  refine ⟨_, rfl, ?_, ?_, processFile_failed_errors f hfail, rfl⟩
  · simp only [analyzeDirectory, List.map_map]
    exact List.map_congr_left (fun f _ => processFile_path f)
  · exact List.mem_map_of_mem processFile hf

/-- Witness for C3 on a two-file directory whose second file fails to parse. -/
theorem c3_witness :
    (analyzeDirectory "proj"
      (some [⟨"a.rs", FileStep.structured ["Point"]⟩, ⟨"b.rs", FileStep.parseError⟩])
      7).isOk = true ∧
    (processFile ⟨"b.rs", FileStep.parseError⟩).errors ≠ [] := by
  obtain ⟨r, hr, -, -, herr, -⟩ :=
    c3_per_file_error_isolation "proj"
      [⟨"a.rs", FileStep.structured ["Point"]⟩, ⟨"b.rs", FileStep.parseError⟩]
      7 ⟨"b.rs", FileStep.parseError⟩ (by simp) rfl
  exact ⟨by rw [hr]; rfl, herr⟩

/-- C7: analyzeDirectory is deterministic across repeated runs on an unchanged
directory listing with unchanged configuration: the two results agree once the
timing counter is ignored.  Modelled from the spec (CodeAnalyzer is not among
the provided sources). -/
theorem c7_deterministic_ignoring_timing (rootDir : String)
    (listing : Option (List FileInput)) (t1 t2 : Nat) :
    (analyzeDirectory rootDir listing t1).map stripTiming =
      (analyzeDirectory rootDir listing t2).map stripTiming := by
  cases listing <;> rfl

/-- The JSON body the upload endpoint answers with, as read by uploadResult of
InterfaceAnalyzerApp: a success flag and, on success, an identifier. -/
structure UploadBody where
  success : Bool
  id : String

/-- An HTTP response from the upload endpoint: its status code and the outcome
of parsing its body as JSON (response.json() throws on a non-JSON body, which
is embedded as the error case). -/
structure HttpResponse where
  status : Nat
  jsonBody : Except Unit UploadBody

/-- Whether an HTTP status code is in the 2xx success range. -/
def is2xx (status : Nat) : Bool := 200 ≤ status && status < 300

/-- The observable outcome of InterfaceAnalyzerApp.uploadResult: the
console.log branch reporting success with the identifier, the console.error
branch for a body whose success flag is falsy, or the catch-all console.error
branch of the surrounding try/catch. -/
inductive UploadOutcome
  | reportedSuccess (id : String)
  | loggedUploadFailure
  | loggedUploadError

/-- InterfaceAnalyzerApp.uploadResult: inside a try/catch it converts the
analysis result to a list, writes a debug file, POSTs to config.serverUrl,
parses the response body as JSON and branches on data.success only; the HTTP
status code of the response is never inspected.  Any throw along the way is
caught and logged, so the method never rejects.  The fallible external steps
are embedded as Except-valued inputs. -/
def InterfaceAnalyzerApp.uploadResult (convert : Except Unit (List String))
    (debugWrite : Except Unit Unit) (fetchResp : Except Unit HttpResponse) :
    UploadOutcome :=
  match convert with
  | .error _ => .loggedUploadError
  | .ok _ =>
    match debugWrite with
    | .error _ => .loggedUploadError
    | .ok _ =>
      match fetchResp with
      | .error _ => .loggedUploadError
      | .ok resp =>
        match resp.jsonBody with
        | .error _ => .loggedUploadError
        | .ok data => if data.success then .reportedSuccess data.id else .loggedUploadFailure

/-- The scan configuration fields of AppConfig that InterfaceAnalyzerApp.run
and uploadResult read. -/
structure AppConfig where
  dirPath : String
  outputJsonFile : String
  upload : Bool
  serverUrl : String

/-- The output path of run(): config.outputJsonFile falling back to the
default name when the configured value is the empty (falsy) string. -/
def outputFilePath (config : AppConfig) : String :=
  if config.outputJsonFile = "" then "analysis_result.json" else config.outputJsonFile

/-- The externally visible steps of InterfaceAnalyzerApp.run in order. -/
inductive RunEvent
  | initialized
  | configUpdated
  | scanned (dirPath : String)
  | wroteFile (path : String)
  | uploadAttempt (url : String) (outcome : UploadOutcome)
  | loggedSaved (path : String)
  | generatedLearningMaterials

/-- InterfaceAnalyzerApp.run: initialize the analyzer, update its config, scan
the directory, write the JSON result file to the output path, then - only when
config.upload is set - call uploadResult, and finally log the saved path and
generate learning materials.  The scan and the result-file write are outside
any try/catch, so their failures reject the returned promise; uploadResult
never does. -/
def InterfaceAnalyzerApp.run (config : AppConfig) (scan : Except String Unit)
    (writeOk : Bool) (convert : Except Unit (List String))
    (debugWrite : Except Unit Unit) (fetchResp : Except Unit HttpResponse) :
    Except String (List RunEvent) :=
  match scan with
  | .error e => .error e
  | .ok _ =>
    if writeOk then
      .ok ([RunEvent.initialized, RunEvent.configUpdated, RunEvent.scanned config.dirPath,
            RunEvent.wroteFile (outputFilePath config)]
        ++ (if config.upload then
              [RunEvent.uploadAttempt config.serverUrl
                (InterfaceAnalyzerApp.uploadResult convert debugWrite fetchResp)]
            else [])
        ++ [RunEvent.loggedSaved (outputFilePath config), RunEvent.generatedLearningMaterials])
    else .error "writeFileSync failed"

/-- C5: with upload enabled, whenever the scan and the result-file write
themselves succeed, run() completes without throwing for every possible upload
outcome (success, non-2xx answer, network error, bad JSON), and the JSON
result file is written to the configured output path before the upload is
attempted. -/
theorem c5_result_written_upload_nonfatal (config : AppConfig)
    (convert : Except Unit (List String)) (debugWrite : Except Unit Unit)
    (fetchResp : Except Unit HttpResponse) (hup : config.upload = true) :
    ∃ rest, InterfaceAnalyzerApp.run config (Except.ok ()) true convert debugWrite fetchResp =
      Except.ok ([RunEvent.initialized, RunEvent.configUpdated,
        RunEvent.scanned config.dirPath, RunEvent.wroteFile (outputFilePath config)] ++ rest) := by
  refine ⟨[RunEvent.uploadAttempt config.serverUrl
    (InterfaceAnalyzerApp.uploadResult convert debugWrite fetchResp)] ++
    [RunEvent.loggedSaved (outputFilePath config), RunEvent.generatedLearningMaterials], ?_⟩
  simp only [InterfaceAnalyzerApp.run, hup, if_true]
  rw [List.append_assoc]

/-- Witness for C5: a concrete upload-enabled config whose POST rejects; run
still returns its event list, the result-file write among the events. -/
theorem c5_witness :
    (AppConfig.mk "proj" "out.json" true "http://upload.example").upload = true ∧
    (InterfaceAnalyzerApp.run (AppConfig.mk "proj" "out.json" true "http://upload.example")
      (Except.ok ()) true (Except.ok []) (Except.ok ()) (Except.error ())).isOk = true := by
  refine ⟨rfl, ?_⟩
  obtain ⟨rest, hr⟩ := c5_result_written_upload_nonfatal
    (AppConfig.mk "proj" "out.json" true "http://upload.example")
    (Except.ok []) (Except.ok ()) (Except.error ()) rfl
  rw [hr]
  rfl

/-- C6 counterexample: the upload endpoint answers with the non-2xx status 404
and a JSON body with success true; uploadResult reports success with the
identifier instead of logging a failure, because the code never inspects the
HTTP status. -/
theorem c6_counterexample :
    InterfaceAnalyzerApp.uploadResult (Except.ok []) (Except.ok ())
      (Except.ok { status := 404, jsonBody := Except.ok { success := true, id := "abc123" } }) =
      UploadOutcome.reportedSuccess "abc123" ∧
    is2xx 404 = false :=
  ⟨rfl, rfl⟩

/-- C6 as amended: uploadResult never inspects the HTTP status code.  For any
status whatsoever, a parsed body with success false is logged as a failure, a
body that fails to parse is caught and logged, and success with the identifier
is reported exactly when the parsed body has success true; in every case the
method completes non-fatally. -/
theorem c6_amended_status_ignored (l : List String) (st : Nat) (b : UploadBody) :
    (b.success = false →
      InterfaceAnalyzerApp.uploadResult (Except.ok l) (Except.ok ())
        (Except.ok { status := st, jsonBody := Except.ok b }) =
        UploadOutcome.loggedUploadFailure) ∧
    (b.success = true →
      InterfaceAnalyzerApp.uploadResult (Except.ok l) (Except.ok ())
        (Except.ok { status := st, jsonBody := Except.ok b }) =
        UploadOutcome.reportedSuccess b.id) ∧
    InterfaceAnalyzerApp.uploadResult (Except.ok l) (Except.ok ())
      (Except.ok { status := st, jsonBody := Except.error () }) =
      UploadOutcome.loggedUploadError := by
  refine ⟨fun h => ?_, fun h => ?_, rfl⟩
  · simp [InterfaceAnalyzerApp.uploadResult, h]
  · simp [InterfaceAnalyzerApp.uploadResult, h]

/-- Witness for the amended C6: a 500 answer whose body has success false is
logged as an upload failure. -/
theorem c6_witness :
    InterfaceAnalyzerApp.uploadResult (Except.ok []) (Except.ok ())
      (Except.ok { status := 500, jsonBody := Except.ok { success := false, id := "" } }) =
      UploadOutcome.loggedUploadFailure :=
  (c6_amended_status_ignored [] 500 { success := false, id := "" }).1 rfl

/-- One entry of the results array the AI is asked to answer with in
ai-validator.ts: a term, its validity verdict and a reason. -/
structure ValidationItem where
  term : String
  isValid : Bool
  reason : String

/-- The ConceptValidationResults interface of ai-validator.ts. -/
structure ConceptValidationResults where
  validConcepts : List String
  invalidConcepts : List (String × String)
deriving DecidableEq, Repr

/-- validateConcepts of ai-validator.ts.  The composite of the fallible
external steps inside its try block - the reply() AI call, taking the first
markdown code block, JSON.parse, and reading the results array - is embedded
as the ai input: error when any of them throws.  The returned flag records
whether the AI reply was requested at all.  The catch branch returns all
extracted terms as valid. -/
def validateConcepts (extractedTerms : List String)
    (ai : Except Unit (List ValidationItem)) : ConceptValidationResults × Bool :=
  if extractedTerms.length = 0 then
    ({ validConcepts := [], invalidConcepts := [] }, false)
  else
    match ai with
    | .error _ => ({ validConcepts := extractedTerms, invalidConcepts := [] }, true)
    | .ok results =>
      (results.foldl (fun acc r =>
        if r.isValid then
          { acc with validConcepts := acc.validConcepts ++ [r.term] }
        else
          { acc with invalidConcepts := acc.invalidConcepts ++ [(r.term, r.reason)] })
        { validConcepts := [], invalidConcepts := [] }, true)

/-- C9: validateConcepts resolves on every input (it is a total function into
its result type).  On an empty term list it answers with empty valid and
invalid lists without requesting the AI reply, and when any step of the AI
interaction throws it answers with all extracted terms as valid concepts and
no invalid ones. -/
theorem c9_total_and_failsafe :
    (∀ ai, validateConcepts [] ai =
      ({ validConcepts := [], invalidConcepts := [] }, false)) ∧
    (∀ terms : List String, terms ≠ [] →
      validateConcepts terms (Except.error ()) =
        ({ validConcepts := terms, invalidConcepts := [] }, true)) := by
  refine ⟨fun ai => rfl, fun terms ht => ?_⟩
  unfold validateConcepts
  rw [if_neg (by simpa [List.length_eq_zero] using ht)]

/-- Witness for C9: a one-term extraction whose AI validation throws comes
back marked entirely valid. -/
theorem c9_witness :
    validateConcepts ["Ledger"] (Except.error ()) =
      ({ validConcepts := ["Ledger"], invalidConcepts := [] }, true) :=
  c9_total_and_failsafe.2 ["Ledger"] (List.cons_ne_nil "Ledger" [])

/-- The mutable fields of MCPServerImpl (server.ts) that its lifecycle methods
read or write, as a state record: the isDestroyed flag (initialized to true in
the class body and never assigned false anywhere) and whether each owned
resource currently exists.  The constructor creates the McpServer instance and
installs hooks, touching none of these optional resources. -/
structure MCPServerImpl where
  isDestroyed : Bool
  hasExpressApp : Bool
  hasHttpSessions : Bool
  hasManagedHttpServer : Bool
  hasStdioTransport : Bool
deriving DecidableEq, Repr

/-- The state of a freshly constructed MCPServerImpl. -/
def MCPServerImpl.construct : MCPServerImpl :=
  { isDestroyed := true
    hasExpressApp := false
    hasHttpSessions := false
    hasManagedHttpServer := false
    hasStdioTransport := false }

/-- MCPServerImpl.ensureDestroyed: throws when isDestroyed is false, returns
otherwise. -/
def MCPServerImpl.ensureDestroyed (s : MCPServerImpl) : Except String Unit :=
  if !s.isDestroyed then .error "MCPServer is still running" else .ok ()

/-- MCPServerImpl.serveHttp: after ensureDestroyed passes it lazily creates
the express app and the HTTP transport session table, registers routes,
replaces any previous managed HTTP server and listens.  It never writes
isDestroyed. -/
def MCPServerImpl.serveHttp (s : MCPServerImpl) : Except String MCPServerImpl :=
  match s.ensureDestroyed with
  | .error e => .error e
  | .ok _ =>
    .ok { s with hasExpressApp := true, hasHttpSessions := true, hasManagedHttpServer := true }

/-- MCPServerImpl.serveStdio: after ensureDestroyed passes it lazily creates
the stdio transport and connects.  It never writes isDestroyed. -/
def MCPServerImpl.serveStdio (s : MCPServerImpl) : Except String MCPServerImpl :=
  match s.ensureDestroyed with
  | .error e => .error e
  | .ok _ => .ok { s with hasStdioTransport := true }

/-- The teardown actions the body of MCPServerImpl.destroy would perform past
its initial isDestroyed guard. -/
inductive DestroyEffect
  | closedMcpInst
  | closedManagedHttpServer
  | clearedHttpSessions
  | closedStdioTransport
deriving DecidableEq, Repr

/-- MCPServerImpl.destroy: returns immediately when isDestroyed is already
true; otherwise sets the flag, closes the McpServer instance, the managed
HTTP server if any, drops the session table and express app, and closes the
stdio transport if any.  The performed teardown actions are returned
alongside the new state. -/
def MCPServerImpl.destroy (s : MCPServerImpl) : MCPServerImpl × List DestroyEffect :=
  if s.isDestroyed then (s, [])
  else
    ({ isDestroyed := true
       hasExpressApp := false
       hasHttpSessions := false
       hasManagedHttpServer := false
       hasStdioTransport := false },
     [DestroyEffect.closedMcpInst]
       ++ (if s.hasManagedHttpServer then [DestroyEffect.closedManagedHttpServer] else [])
       ++ [DestroyEffect.clearedHttpSessions]
       ++ (if s.hasStdioTransport then [DestroyEffect.closedStdioTransport] else []))

/-- A call to one of the public lifecycle methods of MCPServerImpl. -/
inductive MCPOp
  | callServeHttp
  | callServeStdio
  | callDestroy
deriving DecidableEq, Repr

/-- Apply one method call to the server state; a thrown call leaves the state
as it was. -/
def applyOp (s : MCPServerImpl) (op : MCPOp) : MCPServerImpl :=
  match op with
  | .callServeHttp =>
    match s.serveHttp with
    | .ok s2 => s2
    | .error _ => s
  | .callServeStdio =>
    match s.serveStdio with
    | .ok s2 => s2
    | .error _ => s
  | .callDestroy => (s.destroy).1

/-- The state after construction followed by any sequence of method calls. -/
def runOps (ops : List MCPOp) : MCPServerImpl :=
  ops.foldl applyOp MCPServerImpl.construct

theorem applyOp_isDestroyed (s : MCPServerImpl) (op : MCPOp)
    (h : s.isDestroyed = true) : (applyOp s op).isDestroyed = true := by
  cases op with
  | callServeHttp =>
    simp only [applyOp, MCPServerImpl.serveHttp, MCPServerImpl.ensureDestroyed, h]
    simp
  | callServeStdio =>
    simp only [applyOp, MCPServerImpl.serveStdio, MCPServerImpl.ensureDestroyed, h]
    simp
  | callDestroy =>
    simp only [applyOp, MCPServerImpl.destroy, h, if_true]

theorem runOps_isDestroyed (ops : List MCPOp) : (runOps ops).isDestroyed = true := by
  have aux : ∀ (l : List MCPOp) (s : MCPServerImpl), s.isDestroyed = true →
      (l.foldl applyOp s).isDestroyed = true := by
    intro l
    induction l with
    | nil => exact fun s h => h
    | cons op l ih =>
      intro s h
      exact ih (applyOp s op) (applyOp_isDestroyed s op h)
  exact aux ops MCPServerImpl.construct rfl

/-- C10: after construction and any sequence of serveHttp, serveStdio and
destroy calls, the isDestroyed flag is still true; hence ensureDestroyed never
throws, serveHttp and serveStdio accept the call, and destroy returns
immediately with the state unchanged and no teardown action performed (the
McpServer instance, managed HTTP server, HTTP sessions and stdio transport are
never closed). -/
theorem c10_isDestroyed_stuck_true (ops : List MCPOp) :
    (runOps ops).isDestroyed = true ∧
    (runOps ops).ensureDestroyed = Except.ok () ∧
    (runOps ops).destroy = (runOps ops, []) ∧
    ((runOps ops).serveHttp).isOk = true ∧
    ((runOps ops).serveStdio).isOk = true := by
  have h := runOps_isDestroyed ops
  refine ⟨h, ?_, ?_, ?_, ?_⟩
  · simp [MCPServerImpl.ensureDestroyed, h]
  · simp [MCPServerImpl.destroy, h]
  · simp [MCPServerImpl.serveHttp, MCPServerImpl.ensureDestroyed, h, Except.isOk, Except.toBool]
  · simp [MCPServerImpl.serveStdio, MCPServerImpl.ensureDestroyed, h, Except.isOk, Except.toBool]
